/-
Verification of the phenology curve-matching core of Terroir-hunter
(src/AHP.py, lines 297-444).

Shallow embedding conventions:
  * A raw NDVI time series is a `List (Option ℚ)`; `none` models the NaN
    missing-value sentinel, `some y` a finite sample.  Cleaned / smoothed
    curves are `List ℚ`.  Rational numbers model the float values exactly;
    floating-point rounding is below the abstraction level of this model.
  * Library numerics called by the source (np.interp, np.gradient,
    scipy.signal.savgol_filter, scipy.signal.find_peaks,
    scipy.interpolate.interp1d) are embedded by their documented exact
    semantics, at the parameter values the source uses.
  * Python functions that signal failure by returning None are embedded as
    `Option`; failures raised as exceptions are embedded as `Except` errors.
-/
import Mathlib

set_option maxRecDepth 4000

/-! ## SeriesCleaner: clean_ndvi_series (src/AHP.py lines 297-306) -/

/-- Number of valid (non-missing) samples: `valid.sum()` in the source. -/
def countValid (s : List (Option ℚ)) : ℕ := s.countP (fun v => v.isSome)

/-- The valid sample points `(index, value)`, in index order:
`x[valid], series[valid]` in the source. -/
def validPts (s : List (Option ℚ)) : List (ℚ × ℚ) :=
  s.enum.filterMap (fun p => p.2.map (fun y => ((p.1 : ℚ), y)))

/-- Embedding of `np.interp q xs ys` over sample points given as pairs with strictly
increasing first components: piecewise-linear interpolation, constant
extension by the first/last value outside the sample range. -/
def npInterp (q : ℚ) : List (ℚ × ℚ) → ℚ
  | [] => 0
  | [p] => p.2
  | p :: p2 :: rest =>
    if q ≤ p.1 then p.2
    else if q ≤ p2.1 then p.2 + (p2.2 - p.2) * (q - p.1) / (p2.1 - p.1)
    else npInterp q (p2 :: rest)

/-- The fill step `series[~valid] = np.interp(x[~valid], x[valid], series[valid])`:
keep valid entries, fill each missing entry from the interpolant. -/
def clean_fill (s : List (Option ℚ)) : List ℚ :=
  (List.range s.length).map (fun i =>
    match s.getD i none with
    | some y => y
    | none => npInterp (i : ℚ) (validPts s))

/-- Embedding of `clean_ndvi_series` (src/AHP.py lines 297-306): reject an all-missing
series, reject fewer than 3 valid samples, otherwise fill the gaps. -/
def clean_ndvi_series (s : List (Option ℚ)) : Option (List ℚ) :=
  if s.all (fun v => v.isNone) then none
  else if countValid s < 3 then none
  else some (clean_fill s)

/-! ## Numeric primitives: np.gradient and savgol_filter -/

/-- Embedding of `np.gradient` (edge_order 1): one-sided differences at the two ends,
central differences inside.  The source only applies it to series of
length ≥ 2 (numpy raises below that). -/
def npGradient (l : List ℚ) : List ℚ :=
  (List.range l.length).map (fun i =>
    if i = 0 then l.getD 1 0 - l.getD 0 0
    else if i = l.length - 1 then l.getD i 0 - l.getD (i - 1) 0
    else (l.getD (i + 1) 0 - l.getD (i - 1) 0) / 2)

/-- 3x3 determinant, rows listed left-to-right, top-to-bottom. -/
def det3 (a b c d e f g h i : ℚ) : ℚ :=
  a * (e * i - f * h) - b * (d * i - f * g) + c * (d * h - e * g)

/-- 4x4 determinant (expansion along the first row), rows listed
left-to-right, top-to-bottom. -/
def det4 (a b c d e f g h i j k l m n o p : ℚ) : ℚ :=
  a * det3 f g h j k l n o p - b * det3 e g h i k l m o p
    + c * det3 e f h i j l m n p - d * det3 e f g i j k m n o

/-- Power sum `Σ_{j<31} j^k` over the local window abscissae 0..30. -/
def powSum31 (k : ℕ) : ℚ := ((List.range 31).map (fun (j : ℕ) => (j : ℚ) ^ k)).sum

/-- Moment `Σ_{j<31} j^k * ys[j]` of a 31-sample window. -/
def moment31 (ys : List ℚ) (k : ℕ) : ℚ :=
  ((List.range 31).map (fun (j : ℕ) => (j : ℚ) ^ k * ys.getD j 0)).sum

/-- Least-squares cubic fit to the 31 window samples `(j, ys[j])`, j = 0..30,
evaluated at abscissa `t`: normal equations solved by Cramer's rule.
This is the exact-arithmetic content of one `savgol_filter(·, 31, 3)`
output sample (scipy computes the same local polynomial fit). -/
def cubicFitEval31 (ys : List ℚ) (t : ℚ) : ℚ :=
  let s0 := powSum31 0
  let s1 := powSum31 1
  let s2 := powSum31 2
  let s3 := powSum31 3
  let s4 := powSum31 4
  let s5 := powSum31 5
  let s6 := powSum31 6
  let m0 := moment31 ys 0
  let m1 := moment31 ys 1
  let m2 := moment31 ys 2
  let m3 := moment31 ys 3
  let dm := det4 s0 s1 s2 s3 s1 s2 s3 s4 s2 s3 s4 s5 s3 s4 s5 s6
  let b0 := det4 m0 s1 s2 s3 m1 s2 s3 s4 m2 s3 s4 s5 m3 s4 s5 s6 / dm
  let b1 := det4 s0 m0 s2 s3 s1 m1 s3 s4 s2 m2 s4 s5 s3 m3 s5 s6 / dm
  let b2 := det4 s0 s1 m0 s3 s1 s2 m1 s4 s2 s3 m2 s5 s3 s4 m3 s6 / dm
  let b3 := det4 s0 s1 s2 m0 s1 s2 s3 m1 s2 s3 s4 m2 s3 s4 s5 m3 / dm
  b0 + b1 * t + b2 * t ^ 2 + b3 * t ^ 3

/-- Embedding of `savgol_filter(ys, window_length=31, polyorder=3)` with the default
mode `interp` (src/AHP.py line 318), for `ys.length ≥ 31`: every output
sample is the local cubic least-squares fit over the window of 31 samples
centred at the sample (clamped to the series ends), evaluated at the
sample's position.  scipy raises for series shorter than the window; the
caller embeds that failure separately (`ExtractErr.windowTooLarge`). -/
def savgolFilter31 (ys : List ℚ) : List ℚ :=
  let n := ys.length
  (List.range n).map (fun i =>
    let w := min (i - 15) (n - 31)
    cubicFitEval31 ((ys.drop w).take 31) ((i - w : ℕ) : ℚ))

/-! ## find_peaks (scipy.signal.find_peaks with height and distance) -/

/-- Inner plateau scan of scipy's `_local_maxima_1d`: starting at `j`,
advance while `j < iMax` and the signal still equals the plateau value. -/
def plateauEnd (x : ℕ → ℚ) (iMax : ℕ) (v : ℚ) : ℕ → ℕ → ℕ
  | 0, j => j
  | fuel + 1, j => if j < iMax ∧ x j = v then plateauEnd x iMax v fuel (j + 1) else j

/-- Main scan of scipy's `_local_maxima_1d`: strictly-greater-than-left
candidates, plateau midpoints, jump past a detected plateau.  `fuel`
bounds the scan (callers pass the list length, which suffices since the
position strictly increases each step). -/
def lmAux (x : ℕ → ℚ) (iMax : ℕ) : ℕ → ℕ → List ℕ
  | 0, _ => []
  | fuel + 1, i =>
    if i < iMax then
      if x (i - 1) < x i then
        let ia := plateauEnd x iMax (x i) fuel (i + 1)
        if x ia < x i then (i + (ia - 1)) / 2 :: lmAux x iMax fuel (ia + 1)
        else lmAux x iMax fuel (i + 1)
      else lmAux x iMax fuel (i + 1)
    else []

/-- All local maxima (plateau midpoints) of a signal, scipy style. -/
def localMaxima (l : List ℚ) : List ℕ :=
  lmAux (fun i => l.getD i 0) (l.length - 1) l.length 1

/-- Highest-priority peak: maximal height, ties broken towards the larger
index (scipy iterates a stable argsort from its end). -/
def pickBest (p : ℕ × ℚ) (l : List (ℕ × ℚ)) : ℕ × ℚ :=
  l.foldl (fun acc q => if acc.2 < q.2 ∨ (acc.2 = q.2 ∧ acc.1 ≤ q.1) then q else acc) p

/-- Greedy distance selection of scipy's `_select_by_peak_distance`: keep
the highest remaining peak, suppress all peaks nearer than `dist`. -/
def sbdAux (dist : ℕ) : ℕ → List (ℕ × ℚ) → List (ℕ × ℚ)
  | 0, _ => []
  | _, [] => []
  | fuel + 1, p :: rest =>
    let best := pickBest p rest
    best :: sbdAux dist fuel
      ((p :: rest).filter (fun q => dist ≤ max q.1 best.1 - min q.1 best.1 ∧ q.1 ≠ best.1))

/-- Embedding of `find_peaks(l, height, distance)`: local maxima, filtered by minimum
height, thinned by minimum distance, returned in increasing index order. -/
def findPeaks (l : List ℚ) (height : ℚ) (dist : ℕ) : List ℕ :=
  let maxima := localMaxima l
  let tall := maxima.filter (fun p => decide (height ≤ l.getD p 0))
  List.insertionSort (· ≤ ·)
    ((sbdAux dist tall.length (tall.map (fun p => (p, l.getD p 0)))).map (fun q => q.1))

/-! ## LandmarkExtractor: extract_landmarks (src/AHP.py lines 308-351) -/

/-- The four phenological landmark day indices (the dict keys Greenup,
Maturity, Senescence, Dormancy of the source). -/
structure Landmarks where
  greenup : ℕ
  maturity : ℕ
  senescence : ℕ
  dormancy : ℕ
deriving DecidableEq

/-- The fixed fallback landmark set of src/AHP.py line 349. -/
def fallbackLandmarks : Landmarks :=
  { greenup := 100, maturity := 150, senescence := 260, dormancy := 300 }

/-- Failure modes of landmark extraction.  `insufficientData` models the
`return None, None` path (cleaning failed); `windowTooLarge` models the
ValueError scipy's savgol_filter raises when the 31-sample window exceeds
the series length — an exception the source never catches. -/
inductive ExtractErr where
  | insufficientData
  | windowTooLarge
deriving DecidableEq

/-- Embedding of `extract_landmarks` (src/AHP.py lines 308-351): clean, smooth with
savgol_filter(31, 3), take three successive gradients, find positive d3
peaks in days < 180 and negative d3 peaks from day 180 on (indices
shifted back by 180), and assign first/last of each list; any failed
indexing (an empty peak list) falls back to the fixed landmark set. -/
def extract_landmarks (s : List (Option ℚ)) : Except ExtractErr (List ℚ × Landmarks) :=
  match clean_ndvi_series s with
  | none => .error .insufficientData
  | some cleaned =>
    if cleaned.length < 31 then .error .windowTooLarge
    else
      let smooth := savgolFilter31 cleaned
      let d1 := npGradient smooth
      let d2 := npGradient d1
      let d3 := npGradient d2
      let up := findPeaks (d3.take 180) (1 / 10000) 20
      let down := (findPeaks ((d3.drop 180).map (fun v => -v)) (1 / 10000) 20).map (· + 180)
      let lm : Landmarks :=
        match up.head?, up.getLast?, down.head?, down.getLast? with
        | some g, some m, some sn, some dm =>
          { greenup := g, maturity := m, senescence := sn, dormancy := dm }
        | _, _, _, _ => fallbackLandmarks
      .ok (smooth, lm)

/-! ## CurveWarper: warp_and_match (src/AHP.py lines 356-389) -/

/-- The sort `sorted(list(lm.values()))`: the four landmark day indices in
ascending order (dict value order is Greenup, Maturity, Senescence,
Dormancy). -/
def sortedLmValues (lm : Landmarks) : List ℕ :=
  List.insertionSort (· ≤ ·) [lm.greenup, lm.maturity, lm.senescence, lm.dormancy]

/-- The anchor list `[0] + key_points + [365]`: warp anchors of a landmark set. -/
def anchors (lm : Landmarks) : List ℚ :=
  0 :: ((sortedLmValues lm).map (fun (v : ℕ) => (v : ℚ)) ++ [365])

/-- Embedding of `np.searchsorted(xs, q, side='left')` for a sorted list: the number of
elements strictly below `q`. -/
def searchsortedLeft (xs : List ℚ) (q : ℚ) : ℕ :=
  xs.countP (fun a => decide (a < q))

/-- scipy `interp1d(xp, fp, kind='linear')` evaluation (`_call_linear`):
locate the query, clip the segment index to [1, n-1] (which also yields
linear extrapolation with the edge slopes when out of range), and apply
the two-point formula.  On the in-range queries used here it agrees
exactly with np.interp. -/
def callLinear (xp fp : List ℚ) (q : ℚ) : ℚ :=
  let pos := min (max (searchsortedLeft xp q) 1) (xp.length - 1)
  let xlo := xp.getD (pos - 1) 0
  let xhi := xp.getD pos 0
  let ylo := fp.getD (pos - 1) 0
  let yhi := fp.getD pos 0
  (yhi - ylo) / (xhi - xlo) * (q - xlo) + ylo

/-- The query list `inverse_warp(np.arange(len(ref_curve)))` (src/AHP.py lines 382-383):
the reference timeline mapped through the anchor-pair inverse map. -/
def inverseWarpIndices (refLen : ℕ) (refLm tgtLm : Landmarks) : List ℚ :=
  (List.range refLen).map (fun (i : ℕ) => callLinear (anchors refLm) (anchors tgtLm) (i : ℚ))

/-- The clip `np.clip(original_time_indices, 0, 364)` (src/AHP.py line 385): the
clip range is the fixed [0, 364], not [0, targetLength-1]. -/
def clippedIndices (refLen : ℕ) (refLm tgtLm : Landmarks) : List ℚ :=
  (inverseWarpIndices refLen refLm tgtLm).map (fun v => min (max v 0) 364)

/-- Embedding of `warp_and_match` (src/AHP.py lines 356-389).  The final resample
`interp1d(np.arange(len(tgt_curve)), tgt_curve)` has no fill_value, so
scipy raises (here: `none`) when a clipped index falls outside
[0, len(tgt_curve)-1], and when the target has fewer than the two samples
interp1d requires.  (The forward map `warp_func` of lines 372-376 is
computed by the source but never used for the result, so it is omitted.) -/
def warp_and_match (refCurve tgtCurve : List ℚ) (refLm tgtLm : Landmarks) :
    Option (List ℚ) :=
  if tgtCurve.length < 2 then none
  else
    let idx := clippedIndices refCurve.length refLm tgtLm
    if idx.all (fun v => decide (0 ≤ v) && decide (v ≤ (tgtCurve.length : ℚ) - 1)) then
      some (idx.map (fun v =>
        callLinear ((List.range tgtCurve.length).map (fun (j : ℕ) => (j : ℚ))) tgtCurve v))
    else none

/-! ## SimilarityScorer: calculate_similarity (src/AHP.py lines 394-409) -/

/-- The slope-based distance `np.mean(np.abs(s1 - s2))` over the two
gradients (src/AHP.py lines 400-405). -/
def slopeDistance (c1 c2 : List ℚ) : ℚ :=
  let s1 := npGradient c1
  let s2 := npGradient c2
  let diffs := List.zipWith (fun a b => |a - b|) s1 s2
  diffs.sum / (diffs.length : ℚ)

/-- Embedding of `calculate_similarity` (src/AHP.py lines 394-409): the pair
`(100 * exp(-10 * dist), dist)`.  The float exponential is modelled by
the real exponential, hence noncomputable; the distance component stays
rational and computable. -/
noncomputable def calculate_similarity (c1 c2 : List ℚ) : ℝ × ℚ :=
  (100 * Real.exp (-10 * (slopeDistance c1 c2 : ℝ)), slopeDistance c1 c2)

/-! ## SearchRanker: the module-level candidate loop (src/AHP.py 419-444) -/

/-- Ranking failure: `raise RuntimeError` at src/AHP.py lines 443-444 when
no candidate survives. -/
inductive RankErr where
  | noMatchFound
deriving DecidableEq

/-- The filter / stable sort / truncate stage of the candidate loop
(src/AHP.py lines 427, 440-441) over candidates with already-computed
similarity scores, tagged by their input position: skip scores below the
threshold, sort descending (Python's sort is stable), keep the first
`topN`. -/
def rank_candidates (cands : List (ℕ × ℚ)) (threshold : ℚ) (topN : ℕ) :
    List (ℕ × ℚ) :=
  (List.insertionSort (fun a b => b.2 ≤ a.2)
    (cands.filter (fun c => !decide (c.2 < threshold)))).take topN

/-- The ranking outcome (src/AHP.py lines 440-444): an empty top list is
turned into the distinct `noMatchFound` failure, never an empty success. -/
def run_ranking (cands : List (ℕ × ℚ)) (threshold : ℚ) (topN : ℕ) :
    Except RankErr (List (ℕ × ℚ)) :=
  let top := rank_candidates cands threshold topN
  if top = [] then .error .noMatchFound else .ok top

/-- The extraction stage of the candidate loop (src/AHP.py lines 419-424):
a candidate whose extraction returns None (insufficient data) is skipped
with `continue`; an exception raised inside `extract_landmarks` (the
savgol window error) is not caught by the loop, so it aborts the whole
batch. -/
def extract_phase (cands : List (List (Option ℚ))) :
    Except ExtractErr (List (List ℚ × Landmarks)) :=
  match cands with
  | [] => .ok []
  | c :: rest =>
    match extract_landmarks c with
    | .error .insufficientData => extract_phase rest
    | .error e => .error e
    | .ok r =>
      match extract_phase rest with
      | .error e => .error e
      | .ok rs => .ok (r :: rs)


/-! ## General list helpers -/

theorem range_map_getD {α : Type} (l : List α) (d : α) :
    (List.range l.length).map (fun i => l.getD i d) = l := by
  apply List.ext_getElem
  · simp
  · intro i h1 h2
    simp only [List.getElem_map, List.getElem_range]
    exact List.getD_eq_getElem l d h2

/-! ## Cleaning lemmas -/

theorem countValid_le_length (s : List (Option ℚ)) : countValid s ≤ s.length :=
  List.countP_le_length _

theorem countValid_eq_zero_of_all_none (s : List (Option ℚ))
    (h : s.all (fun v => v.isNone) = true) : countValid s = 0 := by
  rw [countValid, List.countP_eq_zero]
  intro v hv
  have := List.all_eq_true.mp h v hv
  simp [Option.isNone_iff_eq_none.mp this]

theorem clean_eq_none_iff (s : List (Option ℚ)) :
    clean_ndvi_series s = none ↔ countValid s < 3 := by
  unfold clean_ndvi_series
  by_cases h1 : s.all (fun v => v.isNone) = true
  · simp [h1, countValid_eq_zero_of_all_none s h1]
  · simp only [h1, if_false]
    by_cases h2 : countValid s < 3 <;> simp [h2]

theorem clean_eq_some_fill (s : List (Option ℚ)) (h : 3 ≤ countValid s) :
    clean_ndvi_series s = some (clean_fill s) := by
  have h1 : ¬ s.all (fun v => v.isNone) = true := by
    intro hall
    have := countValid_eq_zero_of_all_none s hall
    omega
  have h2 : ¬ countValid s < 3 := Nat.not_lt.mpr h
  unfold clean_ndvi_series
  rw [if_neg h1, if_neg h2]

theorem clean_fill_length (s : List (Option ℚ)) : (clean_fill s).length = s.length := by
  simp [clean_fill]

theorem countValid_map_some (c : List ℚ) : countValid (c.map some) = c.length := by
  simp [countValid, List.countP_map, Function.comp_def]

theorem clean_fill_map_some (c : List ℚ) : clean_fill (c.map some) = c := by
  unfold clean_fill
  rw [List.length_map]
  have h : ∀ i ∈ List.range c.length,
      (match (c.map some).getD i none with
       | some y => y
       | none => npInterp (i : ℚ) (validPts (c.map some))) = c.getD i 0 := by
    intro i hi
    have hlt : i < c.length := List.mem_range.mp hi
    have hlt2 : i < (c.map some).length := by simpa using hlt
    rw [List.getD_eq_getElem _ _ hlt2, List.getElem_map, List.getD_eq_getElem _ _ hlt]
  rw [List.map_congr_left h, range_map_getD]

/-- C4 helper: a series with at least 3 valid samples cleans successfully,
preserving length. -/
theorem clean_succeeds (s : List (Option ℚ)) (h : 3 ≤ countValid s) :
    ∃ c, clean_ndvi_series s = some c ∧ c.length = s.length :=
  ⟨clean_fill s, clean_eq_some_fill s h, clean_fill_length s⟩

/-- C4: cleaning signals InsufficientData (returns `none`) exactly when the
series has fewer than 3 valid samples (which subsumes the all-missing
case); with at least 3 valid samples it succeeds and returns a cleaned
series of the same length. -/
theorem clean_insufficient_iff (s : List (Option ℚ)) :
    (clean_ndvi_series s = none ↔ countValid s < 3) ∧
    (3 ≤ countValid s → ∃ c, clean_ndvi_series s = some c ∧ c.length = s.length) :=
  ⟨clean_eq_none_iff s, fun h => clean_succeeds s h⟩

theorem clean_insufficient_iff_witness :
    (clean_ndvi_series [some 1, none, some 2, none, some 3] = none ↔
      countValid [some 1, none, some 2, none, some 3] < 3) ∧
    (3 ≤ countValid [some 1, none, some 2, none, some 3] →
      ∃ c, clean_ndvi_series [some 1, none, some 2, none, some 3] = some c ∧
        c.length = ([some 1, none, some 2, none, some 3] : List (Option ℚ)).length) :=
  clean_insufficient_iff [some 1, none, some 2, none, some 3]

/-- C5: cleaning is idempotent — re-cleaning a successfully cleaned series
(at least 3 valid samples) returns it unchanged. -/
theorem clean_idempotent (s : List (Option ℚ)) (h : 3 ≤ countValid s) (c : List ℚ)
    (hc : clean_ndvi_series s = some c) :
    clean_ndvi_series (c.map some) = some c := by
  have hfill : c = clean_fill s :=
    Option.some_inj.mp (hc.symm.trans (clean_eq_some_fill s h))
  have hlen : c.length = s.length := by rw [hfill]; exact clean_fill_length s
  have hcount : countValid (c.map some) = c.length := countValid_map_some c
  have h3 : 3 ≤ countValid (c.map some) := by
    rw [hcount, hlen]
    exact le_trans h (countValid_le_length s)
  rw [clean_eq_some_fill (c.map some) h3, clean_fill_map_some]

theorem clean_idempotent_witness :
    clean_ndvi_series (([1, 2, 3] : List ℚ).map some) = some ([1, 2, 3] : List ℚ) :=
  clean_idempotent [some 1, some 2, some 3] (by decide) [1, 2, 3] (by rfl)

/-! ## Smoothing and peak detection on constant series -/

theorem powSum31_vals :
    powSum31 0 = 31 ∧ powSum31 1 = 465 ∧ powSum31 2 = 9455 ∧
    powSum31 3 = 216225 ∧ powSum31 4 = 5273999 ∧ powSum31 5 = 133987425 ∧
    powSum31 6 = 3500931215 := by
  have hr : List.range 31 =
      [0, 1, 2, 3, 4, 5, 6, 7, 8, 9, 10, 11, 12, 13, 14, 15, 16, 17, 18, 19,
       20, 21, 22, 23, 24, 25, 26, 27, 28, 29, 30] := by rfl
  refine ⟨?_, ?_, ?_, ?_, ?_, ?_, ?_⟩ <;>
    simp only [powSum31, hr, List.map_cons, List.map_nil, List.sum_cons,
      List.sum_nil] <;> try norm_num

theorem savgolNormalDet_ne_zero :
    det4 (powSum31 0) (powSum31 1) (powSum31 2) (powSum31 3)
      (powSum31 1) (powSum31 2) (powSum31 3) (powSum31 4)
      (powSum31 2) (powSum31 3) (powSum31 4) (powSum31 5)
      (powSum31 3) (powSum31 4) (powSum31 5) (powSum31 6) ≠ 0 := by
  obtain ⟨h0, h1, h2, h3, h4, h5, h6⟩ := powSum31_vals
  rw [h0, h1, h2, h3, h4, h5, h6]
  norm_num [det4, det3]

theorem getD_replicate_of_lt {α : Type} (n i : ℕ) (a d : α) (h : i < n) :
    (List.replicate n a).getD i d = a := by
  rw [List.getD_eq_getElem _ _ (by simpa using h), List.getElem_replicate]

theorem moment31_replicate (c : ℚ) (k : ℕ) :
    moment31 (List.replicate 31 c) k = powSum31 k * c := by
  unfold moment31 powSum31
  rw [← List.sum_map_mul_right]
  refine congrArg List.sum (List.map_congr_left ?_)
  intro j hj
  rw [getD_replicate_of_lt 31 j c 0 (List.mem_range.mp hj)]

theorem det4_col0_smul (s0 s1 s2 s3 s4 s5 s6 c : ℚ) :
    det4 (s0 * c) s1 s2 s3 (s1 * c) s2 s3 s4 (s2 * c) s3 s4 s5 (s3 * c) s4 s5 s6 =
      det4 s0 s1 s2 s3 s1 s2 s3 s4 s2 s3 s4 s5 s3 s4 s5 s6 * c := by
  simp only [det4, det3]; ring

theorem det4_col1_smul (s0 s1 s2 s3 s4 s5 s6 c : ℚ) :
    det4 s0 (s0 * c) s2 s3 s1 (s1 * c) s3 s4 s2 (s2 * c) s4 s5 s3 (s3 * c) s5 s6 = 0 := by
  simp only [det4, det3]; ring

theorem det4_col2_smul (s0 s1 s2 s3 s4 s5 s6 c : ℚ) :
    det4 s0 s1 (s0 * c) s3 s1 s2 (s1 * c) s4 s2 s3 (s2 * c) s5 s3 s4 (s3 * c) s6 = 0 := by
  simp only [det4, det3]; ring

theorem det4_col3_smul (s0 s1 s2 s3 s4 s5 c : ℚ) :
    det4 s0 s1 s2 (s0 * c) s1 s2 s3 (s1 * c) s2 s3 s4 (s2 * c) s3 s4 s5 (s3 * c) = 0 := by
  simp only [det4, det3]; ring

theorem cubicFitEval31_const (c t : ℚ) :
    cubicFitEval31 (List.replicate 31 c) t = c := by
  simp only [cubicFitEval31, moment31_replicate]
  rw [det4_col0_smul, det4_col1_smul, det4_col2_smul, det4_col3_smul,
    mul_div_cancel_left₀ c savgolNormalDet_ne_zero]
  simp

theorem savgolFilter31_replicate (n : ℕ) (c : ℚ) (h : 31 ≤ n) :
    savgolFilter31 (List.replicate n c) = List.replicate n c := by
  apply List.ext_getElem
  · simp [savgolFilter31]
  · intro i h1 h2
    simp only [savgolFilter31, List.length_replicate, List.getElem_map,
      List.getElem_range, List.getElem_replicate]
    have hwin : ((List.replicate n c).drop (min (i - 15) (n - 31))).take 31 =
        List.replicate 31 c := by
      rw [List.drop_replicate, List.take_replicate]
      congr 1
      omega
    rw [hwin, cubicFitEval31_const]

theorem npGradient_replicate (n : ℕ) (c : ℚ) (hn : 2 ≤ n) :
    npGradient (List.replicate n c) = List.replicate n 0 := by
  apply List.ext_getElem
  · simp [npGradient]
  · intro i h1 h2
    simp only [npGradient, List.length_replicate, List.getElem_map,
      List.getElem_range, List.getElem_replicate]
    have h1n : i < n := by simpa [npGradient] using h1
    by_cases hi0 : i = 0
    · rw [if_pos hi0, getD_replicate_of_lt n 1 c 0 (by omega),
        getD_replicate_of_lt n 0 c 0 (by omega), sub_self]
    · rw [if_neg hi0]
      by_cases hil : i = n - 1
      · rw [if_pos hil, getD_replicate_of_lt n i c 0 (by omega),
          getD_replicate_of_lt n (i - 1) c 0 (by omega), sub_self]
      · rw [if_neg hil, getD_replicate_of_lt n (i + 1) c 0 (by omega),
          getD_replicate_of_lt n (i - 1) c 0 (by omega), sub_self, zero_div]

theorem lmAux_const_nil (x : ℕ → ℚ) (hx : ∀ i j, x i = x j) (iMax : ℕ) :
    ∀ fuel i, lmAux x iMax fuel i = [] := by
  intro fuel
  induction fuel with
  | zero => intro i; rfl
  | succ f ih =>
    intro i
    unfold lmAux
    have hnlt : ¬ x (i - 1) < x i := by rw [hx (i - 1) i]; exact lt_irrefl _
    by_cases hi : i < iMax
    · simp [hi, hnlt, ih]
    · simp [hi]

theorem getD_replicate_zero (n i : ℕ) : (List.replicate n (0 : ℚ)).getD i 0 = 0 := by
  rcases Nat.lt_or_ge i n with h | h
  · exact getD_replicate_of_lt n i 0 0 h
  · exact List.getD_eq_default _ _ (by simpa using h)

theorem localMaxima_replicate_zero (n : ℕ) :
    localMaxima (List.replicate n (0 : ℚ)) = [] := by
  unfold localMaxima
  exact lmAux_const_nil _
    (fun i j => by rw [getD_replicate_zero, getD_replicate_zero]) _ _ _

theorem findPeaks_replicate_zero (n : ℕ) (h : ℚ) (d : ℕ) :
    findPeaks (List.replicate n 0) h d = [] := by
  unfold findPeaks
  rw [localMaxima_replicate_zero]
  rfl

/-- C7: a perfectly flat 365-day series (no missing samples) produces no
third-derivative peaks, so landmark extraction succeeds with the smoothed
(unchanged) curve and exactly the fixed fallback landmark set. -/
theorem flat_series_fallback (c : ℚ) :
    extract_landmarks (List.replicate 365 (some c)) =
      .ok (List.replicate 365 c, fallbackLandmarks) := by
  have hmap : List.replicate 365 (some c) = (List.replicate 365 c).map some := by
    rw [List.map_replicate]
  have hcount : 3 ≤ countValid (List.replicate 365 (some c)) := by
    rw [hmap, countValid_map_some, List.length_replicate]
    norm_num
  have hclean : clean_ndvi_series (List.replicate 365 (some c)) =
      some (List.replicate 365 c) := by
    rw [clean_eq_some_fill _ hcount, hmap, clean_fill_map_some]
  unfold extract_landmarks
  simp only [hclean, List.length_replicate]
  rw [if_neg (by norm_num)]
  rw [savgolFilter31_replicate 365 c (by norm_num),
    npGradient_replicate 365 c (by norm_num),
    npGradient_replicate 365 0 (by norm_num),
    npGradient_replicate 365 0 (by norm_num),
    List.take_replicate, List.drop_replicate, List.map_replicate, neg_zero,
    findPeaks_replicate_zero, findPeaks_replicate_zero]
  rfl

/-- C6 counterexample: a candidate series of 5 valid samples cleans
successfully, its cleaned length 5 is below the 31-sample window, and the
batch ABORTS with the window error — it is not skipped the way an
insufficient-data candidate is (an all-missing candidate yields `.ok []`). -/
theorem window_skip_cex :
    extract_phase [List.replicate 5 (some 1)] = .error .windowTooLarge ∧
    extract_phase [List.replicate 365 (none : Option ℚ)] = .ok ([] : List (List ℚ × Landmarks)) := by
  constructor
  · rfl
  · rfl

/-- C6 amended: when a cleaned series is shorter than the 31-sample
smoothing window, extraction fails with the window error, but the
candidate loop does NOT treat that like InsufficientData: the error
propagates (the Python ValueError is uncaught) and aborts the whole
batch instead of skipping the candidate. -/
theorem window_error_aborts_batch (s : List (Option ℚ)) (c : List ℚ)
    (hc : clean_ndvi_series s = some c) (hlen : c.length < 31) :
    extract_landmarks s = .error .windowTooLarge ∧
    ∀ rest, extract_phase (s :: rest) = .error .windowTooLarge := by
  have hex : extract_landmarks s = .error .windowTooLarge := by
    unfold extract_landmarks
    simp only [hc]
    rw [if_pos hlen]
  refine ⟨hex, fun rest => ?_⟩
  unfold extract_phase
  simp only [hex]

theorem window_error_aborts_batch_witness :
    extract_landmarks (List.replicate 5 (some 1)) = .error .windowTooLarge ∧
    extract_phase [List.replicate 5 (some 1)] = .error .windowTooLarge := by
  have h := window_error_aborts_batch (List.replicate 5 (some 1))
    (List.replicate 5 1) (by rfl) (by decide)
  exact ⟨h.1, h.2 []⟩

/-- C10: on any 365-sample series that cleans successfully (at least 3
valid samples), landmark extraction never fails: the cleaned length 365
admits the 31-sample window, smoothing / gradients / peak detection are
total, and the landmark assignment falls back to the fixed set whenever a
peak list is empty, so extraction always returns a smoothed curve and a
full landmark set. -/
theorem extraction_total (s : List (Option ℚ)) (hlen : s.length = 365)
    (hv : 3 ≤ countValid s) :
    ∃ sm lm, extract_landmarks s = .ok (sm, lm) := by
  have hclean := clean_eq_some_fill s hv
  have hclen : (clean_fill s).length = 365 := by rw [clean_fill_length, hlen]
  unfold extract_landmarks
  simp only [hclean, hclen]
  rw [if_neg (by norm_num)]
  exact ⟨_, _, rfl⟩

theorem extraction_total_witness :
    ∃ sm lm, extract_landmarks (List.replicate 365 (some 0)) = .ok (sm, lm) :=
  extraction_total (List.replicate 365 (some 0)) (by simp) (by decide)

/-! ## Similarity bounds -/

theorem sum_zipWith_abs_nonneg :
    ∀ (l1 l2 : List ℚ), 0 ≤ (List.zipWith (fun a b => |a - b|) l1 l2).sum
  | [], _ => by simp
  | _ :: _, [] => by simp
  | a :: l1, b :: l2 => by
    simp only [List.zipWith_cons_cons, List.sum_cons]
    exact add_nonneg (abs_nonneg _) (sum_zipWith_abs_nonneg l1 l2)

theorem slopeDistance_nonneg (c1 c2 : List ℚ) : 0 ≤ slopeDistance c1 c2 := by
  unfold slopeDistance
  exact div_nonneg (sum_zipWith_abs_nonneg _ _) (by positivity)

/-- C3: the scorer's distance (mean absolute slope difference) is
nonnegative, and the similarity `100 * exp(-10 * distance)` is strictly
positive, at most 100, and equals 100 exactly when the distance is 0. -/
theorem similarity_bounds (c1 c2 : List ℚ) (hlen : c1.length = c2.length)
    (h2 : 2 ≤ c1.length) :
    0 ≤ (calculate_similarity c1 c2).2 ∧
    0 < (calculate_similarity c1 c2).1 ∧
    (calculate_similarity c1 c2).1 ≤ 100 ∧
    ((calculate_similarity c1 c2).1 = 100 ↔ (calculate_similarity c1 c2).2 = 0) := by
  have hd : 0 ≤ slopeDistance c1 c2 := slopeDistance_nonneg c1 c2
  have hdR : (0 : ℝ) ≤ (slopeDistance c1 c2 : ℝ) := by exact_mod_cast hd
  simp only [calculate_similarity]
  refine ⟨hd, ?_, ?_, ?_⟩
  · positivity
  · have h1 : Real.exp (-10 * (slopeDistance c1 c2 : ℝ)) ≤ 1 := by
      rw [← Real.exp_zero]
      exact Real.exp_le_exp.mpr (by nlinarith)
    nlinarith [Real.exp_pos (-10 * (slopeDistance c1 c2 : ℝ))]
  · constructor
    · intro h
      have he : Real.exp (-10 * (slopeDistance c1 c2 : ℝ)) = 1 := by nlinarith
      have h0 : -10 * (slopeDistance c1 c2 : ℝ) = 0 :=
        Real.exp_eq_exp.mp (he.trans Real.exp_zero.symm)
      have : (slopeDistance c1 c2 : ℝ) = 0 := by linarith
      exact_mod_cast this
    · intro h
      rw [h]
      norm_num

theorem similarity_bounds_witness :
    0 ≤ (calculate_similarity [0, 0] [0, 1]).2 ∧
    0 < (calculate_similarity [0, 0] [0, 1]).1 ∧
    (calculate_similarity [0, 0] [0, 1]).1 ≤ 100 ∧
    ((calculate_similarity [0, 0] [0, 1]).1 = 100 ↔
      (calculate_similarity [0, 0] [0, 1]).2 = 0) :=
  similarity_bounds [0, 0] [0, 1] (by rfl) (by norm_num)

/-! ## Ranking: stability, filtering, truncation -/

instance : IsTotal (ℕ × ℚ) (fun a b => b.2 ≤ a.2) := ⟨fun a b => le_total b.2 a.2⟩

instance : IsTrans (ℕ × ℚ) (fun a b => b.2 ≤ a.2) := ⟨fun _ _ _ h1 h2 => le_trans h2 h1⟩

theorem pairwise_stable_orderedInsert (a : ℕ × ℚ) (l : List (ℕ × ℚ))
    (hs : l.Sorted (fun x y => y.2 ≤ x.2))
    (hp : l.Pairwise (fun x y => x.2 = y.2 → x.1 < y.1))
    (hlt : ∀ x ∈ l, a.1 < x.1) :
    (l.orderedInsert (fun x y => y.2 ≤ x.2) a).Pairwise
      (fun x y => x.2 = y.2 → x.1 < y.1) := by
  induction l with
  | nil => simp [List.orderedInsert]
  | cons b l ih =>
    rw [List.orderedInsert]
    split_ifs with hab
    · refine List.Pairwise.cons ?_ hp
      intro x hx _
      exact hlt x hx
    · have hsp := List.sorted_cons.mp hs
      have hpp := List.pairwise_cons.mp hp
      refine List.Pairwise.cons ?_
        (ih hsp.2 hpp.2 (fun x hx => hlt x (List.mem_cons_of_mem b hx)))
      intro x hx heq
      rcases (List.mem_orderedInsert _).mp hx with hxa | hxl
      · exact absurd (hxa ▸ le_of_eq heq) hab
      · exact hpp.1 x hxl heq

theorem pairwise_stable_insertionSort (l : List (ℕ × ℚ))
    (h : l.Pairwise (fun x y => x.1 < y.1)) :
    (List.insertionSort (fun x y => y.2 ≤ x.2) l).Pairwise
      (fun x y => x.2 = y.2 → x.1 < y.1) := by
  induction l with
  | nil => simp [List.insertionSort]
  | cons a l ih =>
    rw [List.insertionSort]
    have hp := List.pairwise_cons.mp h
    apply pairwise_stable_orderedInsert
    · exact List.sorted_insertionSort _ l
    · exact ih hp.2
    · intro x hx
      exact hp.1 x ((List.mem_insertionSort _).mp hx)

/-- C8: the ranker keeps exactly the candidates at or above the threshold
(strictly-below ones are dropped), sorts them by similarity descending
with ties kept in input order (stable sort), truncates to topN; on scores
[95, 40, 80, 61, 60] with threshold 60 and topN 3 the output is exactly
the candidates scoring 95, 80, 61 in that order. -/
theorem ranking_filter_sort_truncate :
    rank_candidates [(0, 95), (1, 40), (2, 80), (3, 61), (4, 60)] 60 3 =
      [(0, 95), (2, 80), (3, 61)] ∧
    (∀ cands th n p, p ∈ rank_candidates cands th n → th ≤ p.2) ∧
    (∀ cands th n, (rank_candidates cands th n).Pairwise (fun a b => b.2 ≤ a.2)) ∧
    (∀ cands th n, cands.Pairwise (fun a b => a.1 < b.1) →
      (rank_candidates cands th n).Pairwise (fun a b => a.2 = b.2 → a.1 < b.1)) := by
  refine ⟨by decide, ?_, ?_, ?_⟩
  · intro cands th n p hp
    have h1 : p ∈ List.insertionSort (fun a b => b.2 ≤ a.2)
        (cands.filter (fun c => !decide (c.2 < th))) :=
      (List.take_sublist _ _).subset hp
    have h3 := (List.mem_filter.mp ((List.mem_insertionSort _).mp h1)).2
    simpa using h3
  · intro cands th n
    exact List.Pairwise.sublist (List.take_sublist _ _)
      (List.sorted_insertionSort _ _)
  · intro cands th n h
    exact List.Pairwise.sublist (List.take_sublist _ _)
      (pairwise_stable_insertionSort _ (h.filter _))

theorem ranking_filter_sort_truncate_witness :
    (60 : ℚ) ≤ ((0 : ℕ), (95 : ℚ)).2 ∧
    (rank_candidates [(0, 95), (1, 40), (2, 80), (3, 61), (4, 60)] 60 3).Pairwise
      (fun a b => a.2 = b.2 → a.1 < b.1) :=
  ⟨ranking_filter_sort_truncate.2.1 [(0, 95), (1, 40), (2, 80), (3, 61), (4, 60)]
      60 3 (0, 95) (by decide),
   ranking_filter_sort_truncate.2.2.2 [(0, 95), (1, 40), (2, 80), (3, 61), (4, 60)]
      60 3 (by decide)⟩

/-- C9: the ranking outcome is `noMatchFound` exactly when no candidate
survives filtering and truncation, and an empty successful result is
never returned. -/
theorem empty_result_error (cands : List (ℕ × ℚ)) (threshold : ℚ) (topN : ℕ) :
    (run_ranking cands threshold topN = .error .noMatchFound ↔
      rank_candidates cands threshold topN = []) ∧
    run_ranking cands threshold topN ≠ .ok [] := by
  unfold run_ranking
  by_cases h : rank_candidates cands threshold topN = [] <;> simp [h]

theorem empty_result_error_witness :
    (run_ranking [] 60 3 = .error .noMatchFound ↔ rank_candidates [] 60 3 = []) ∧
    run_ranking [] 60 3 ≠ .ok [] :=
  empty_result_error [] 60 3

/-! ## Warp: piecewise-linear interpolation identity -/

theorem countP_lt_eq_zero_of_bound (q a : ℚ) (l : List ℚ)
    (hge : ∀ b ∈ l, a ≤ b) (ha : ¬ a < q) :
    l.countP (fun b => decide (b < q)) = 0 := by
  rw [List.countP_eq_zero]
  intro b hb
  simp only [decide_eq_true_eq]
  exact fun hbq => ha (lt_of_le_of_lt (hge b hb) hbq)

theorem sorted_getD_lt_of_lt_countP (q : ℚ) :
    ∀ (xs : List ℚ), xs.Sorted (· ≤ ·) →
      ∀ j, j < xs.countP (fun a => decide (a < q)) → xs.getD j 0 < q
  | [], _, j, h => by simp at h
  | a :: l, hs, j, h => by
    have hsc := List.sorted_cons.mp hs
    rw [List.countP_cons] at h
    by_cases ha : a < q
    · cases j with
      | zero => simpa using ha
      | succ j2 =>
        rw [List.getD_cons_succ]
        exact sorted_getD_lt_of_lt_countP q l hsc.2 j2 (by simpa [ha] using h)
    · rw [countP_lt_eq_zero_of_bound q a l hsc.1 ha] at h
      simp [ha] at h

theorem sorted_le_getD_of_countP_le (q : ℚ) :
    ∀ (xs : List ℚ), xs.Sorted (· ≤ ·) →
      ∀ j, xs.countP (fun a => decide (a < q)) ≤ j → j < xs.length →
        q ≤ xs.getD j 0
  | [], _, j, _, hj => by simp at hj
  | a :: l, hs, j, h, hj => by
    have hsc := List.sorted_cons.mp hs
    rw [List.countP_cons] at h
    by_cases ha : a < q
    · cases j with
      | zero => simp [ha] at h
      | succ j2 =>
        rw [List.getD_cons_succ]
        exact sorted_le_getD_of_countP_le q l hsc.2 j2 (by simpa [ha] using h)
          (by simpa using hj)
    · cases j with
      | zero => simpa using le_of_not_lt ha
      | succ j2 =>
        rw [List.getD_cons_succ]
        have hz := countP_lt_eq_zero_of_bound q a l hsc.1 ha
        exact sorted_le_getD_of_countP_le q l hsc.2 j2 (by omega)
          (by simpa using hj)

/-- Evaluating the piecewise-linear map built over identical abscissa and
ordinate anchor lists is the identity on in-range queries. -/
theorem callLinear_self (xs : List ℚ) (hs : xs.Sorted (· ≤ ·))
    (h0 : xs.getD 0 0 = 0) (hlen : 2 ≤ xs.length)
    (hlast : (365 : ℚ) ≤ xs.getD (xs.length - 1) 0)
    (hnn : ∀ a ∈ xs, 0 ≤ a)
    (q : ℚ) (hq0 : 0 ≤ q) (hq1 : q < 365) :
    callLinear xs xs q = q := by
  simp only [callLinear, searchsortedLeft]
  rcases eq_or_lt_of_le hq0 with rfl | hq
  · have hp0 : xs.countP (fun a => decide (a < 0)) = 0 := by
      rw [List.countP_eq_zero]
      intro b hb
      simpa using hnn b hb
    rw [hp0]
    have hmin : min (max 0 1) (xs.length - 1) = 1 := by omega
    rw [hmin, h0]
    ring
  · have hp1 : 1 ≤ xs.countP (fun a => decide (a < q)) := by
      apply List.countP_pos_iff.mpr
      refine ⟨xs.getD 0 0, ?_, ?_⟩
      · rw [List.getD_eq_getElem _ _ (by omega)]
        exact List.getElem_mem _
      · simp only [decide_eq_true_eq, h0]
        exact hq
    have hpn : xs.countP (fun a => decide (a < q)) < xs.length := by
      rcases Nat.lt_or_ge (xs.countP (fun a => decide (a < q))) xs.length with h | h
      · exact h
      · exfalso
        have heq : xs.countP (fun a => decide (a < q)) = xs.length :=
          le_antisymm (List.countP_le_length _) h
        have hall := List.countP_eq_length.mp heq (xs.getD (xs.length - 1) 0)
          (by rw [List.getD_eq_getElem _ _ (by omega)]; exact List.getElem_mem _)
        have : ¬ xs.getD (xs.length - 1) 0 < q :=
          not_lt.mpr (le_trans (le_of_lt hq1) hlast)
        simp only [decide_eq_true_eq] at hall
        exact this hall
    have hmin : min (max (xs.countP (fun a => decide (a < q))) 1) (xs.length - 1) =
        xs.countP (fun a => decide (a < q)) := by omega
    rw [hmin]
    have hlo : xs.getD (xs.countP (fun a => decide (a < q)) - 1) 0 < q :=
      sorted_getD_lt_of_lt_countP q xs hs _ (by omega)
    have hhi : q ≤ xs.getD (xs.countP (fun a => decide (a < q))) 0 :=
      sorted_le_getD_of_countP_le q xs hs _ (le_refl _) (by omega)
    have hne : xs.getD (xs.countP (fun a => decide (a < q))) 0 -
        xs.getD (xs.countP (fun a => decide (a < q)) - 1) 0 ≠ 0 :=
      sub_ne_zero.mpr (ne_of_gt (lt_of_lt_of_le hlo hhi))
    rw [div_self hne, one_mul]
    ring

theorem sortedLmValues_length (lm : Landmarks) : (sortedLmValues lm).length = 4 := by
  unfold sortedLmValues
  rw [List.length_insertionSort]
  rfl

theorem sortedLmValues_le (lm : Landmarks) (hg : lm.greenup ≤ 364)
    (hm : lm.maturity ≤ 364) (hsn : lm.senescence ≤ 364) (hd : lm.dormancy ≤ 364) :
    ∀ v ∈ sortedLmValues lm, v ≤ 365 := by
  intro v hv
  have hv4 := (List.mem_insertionSort _).mp hv
  simp only [List.mem_cons, List.not_mem_nil, or_false] at hv4
  rcases hv4 with rfl | rfl | rfl | rfl <;> omega

theorem anchors_length (lm : Landmarks) : (anchors lm).length = 6 := by
  unfold anchors
  simp [sortedLmValues_length]

theorem anchors_getD_zero (lm : Landmarks) : (anchors lm).getD 0 0 = 0 := rfl

theorem anchors_getD_last (lm : Landmarks) : (anchors lm).getD 5 0 = 365 := by
  unfold anchors
  rw [List.getD_cons_succ]
  have hlen : ((sortedLmValues lm).map (fun v : ℕ => (v : ℚ))).length = 4 := by
    simp [sortedLmValues_length]
  rw [List.getD_eq_getElem _ _ (by simp [hlen])]
  rw [List.getElem_append_right (by omega)]
  simp [hlen]

theorem anchors_nonneg (lm : Landmarks) : ∀ a ∈ anchors lm, 0 ≤ a := by
  intro a ha
  unfold anchors at ha
  rcases List.mem_cons.mp ha with rfl | ha2
  · exact le_refl 0
  · rcases List.mem_append.mp ha2 with hl | hr
    · rcases List.mem_map.mp hl with ⟨v, _, rfl⟩
      exact Nat.cast_nonneg v
    · rw [List.mem_singleton.mp hr]
      norm_num

theorem anchors_sorted (lm : Landmarks) (hb : ∀ v ∈ sortedLmValues lm, v ≤ 365) :
    (anchors lm).Sorted (· ≤ ·) := by
  unfold anchors
  rw [List.sorted_cons]
  constructor
  · intro b hbm
    rcases List.mem_append.mp hbm with hl | hr
    · rcases List.mem_map.mp hl with ⟨v, _, rfl⟩
      exact Nat.cast_nonneg v
    · rw [List.mem_singleton.mp hr]
      norm_num
  · refine List.pairwise_append.mpr ⟨?_, ?_, ?_⟩
    · exact List.Pairwise.map _ (fun _ _ h => Nat.cast_le.mpr h)
        (List.sorted_insertionSort _ _)
    · simp
    · intro a hal b hbr
      rcases List.mem_map.mp hal with ⟨v, hv, rfl⟩
      rw [List.mem_singleton.mp hbr]
      exact_mod_cast hb v hv

theorem countP_range_lt (n j : ℕ) (h : j ≤ n) :
    (List.range n).countP (fun (k : ℕ) => decide ((k : ℚ) < (j : ℚ))) = j := by
  have hcast : ∀ k : ℕ, decide ((k : ℚ) < (j : ℚ)) = decide (k < j) := by
    intro k
    simp [Nat.cast_lt]
  simp only [hcast]
  induction n with
  | zero => rw [List.range_zero, List.countP_nil]; omega
  | succ n ih =>
    rw [List.range_succ, List.countP_append]
    by_cases hj : j ≤ n
    · rw [ih hj]
      have : ¬ n < j := by omega
      simp [this]
    · have hj1 : j = n + 1 := by omega
      subst hj1
      have hfull : (List.range n).countP (fun k => decide (k < n + 1)) = n := by
        rw [List.countP_eq_length.mpr]
        · exact List.length_range n
        · intro a ha
          simp only [decide_eq_true_eq]
          have := List.mem_range.mp ha
          omega
      rw [hfull]
      simp

theorem getD_range_cast (n i : ℕ) (h : i < n) :
    ((List.range n).map (fun k : ℕ => (k : ℚ))).getD i 0 = (i : ℚ) := by
  rw [List.getD_eq_getElem _ _ (by simpa using h)]
  simp

/-- Resampling a curve with the interp1d built on its own integer time
grid returns the exact sample at every integer query. -/
theorem callLinear_range_int (ys : List ℚ) (j : ℕ) (h2 : 2 ≤ ys.length)
    (hj : j < ys.length) :
    callLinear ((List.range ys.length).map (fun k : ℕ => (k : ℚ))) ys (j : ℚ) =
      ys.getD j 0 := by
  simp only [callLinear, searchsortedLeft]
  have hcount : ((List.range ys.length).map (fun k : ℕ => (k : ℚ))).countP
      (fun a => decide (a < (j : ℚ))) = j := by
    rw [List.countP_map]
    exact countP_range_lt _ _ (le_of_lt hj)
  rw [hcount, List.length_map, List.length_range]
  by_cases hj0 : j = 0
  · subst hj0
    have hmin : min (max 0 1) (ys.length - 1) = 1 := by omega
    rw [hmin]
    rw [getD_range_cast _ 0 (by omega)]
    push_cast
    ring
  · have hmin : min (max j 1) (ys.length - 1) = j := by omega
    rw [hmin]
    rw [getD_range_cast _ (j - 1) (by omega), getD_range_cast _ j (by omega)]
    have hcast : (j : ℚ) - ((j - 1 : ℕ) : ℚ) = 1 := by
      have h1 : (1 : ℕ) ≤ j := by omega
      push_cast [h1]
      ring
    rw [hcast]
    norm_num

/-- Warping a curve onto itself with identical landmark sets leaves every
clipped inverse-mapped index equal to the reference day itself. -/
theorem clippedIndices_id (refLen : ℕ) (lm : Landmarks) (hrl : refLen ≤ 365)
    (hg : lm.greenup ≤ 364) (hm : lm.maturity ≤ 364)
    (hsn : lm.senescence ≤ 364) (hd : lm.dormancy ≤ 364) :
    clippedIndices refLen lm lm = (List.range refLen).map (fun (i : ℕ) => (i : ℚ)) := by
  have hb := sortedLmValues_le lm hg hm hsn hd
  have hsorted := anchors_sorted lm hb
  unfold clippedIndices inverseWarpIndices
  rw [List.map_map]
  apply List.map_congr_left
  intro i hi
  have hi365 : i < 365 := lt_of_lt_of_le (List.mem_range.mp hi) hrl
  simp only [Function.comp_apply]
  rw [callLinear_self (anchors lm) hsorted (anchors_getD_zero lm)
    (by rw [anchors_length]; norm_num)
    (by rw [anchors_length, show (6 : ℕ) - 1 = 5 from rfl, anchors_getD_last])
    (anchors_nonneg lm) (i : ℚ) (Nat.cast_nonneg i) (by exact_mod_cast hi365)]
  rw [max_eq_left (Nat.cast_nonneg i),
    min_eq_left (by exact_mod_cast Nat.le_of_lt_succ hi365)]

/-- C2: warping a 365-sample curve onto itself with the same landmark set
as reference and target landmarks returns the curve unchanged (exactly,
in this rational-arithmetic model): the composed warp map is the
identity. -/
theorem warp_identity (curve : List ℚ) (lm : Landmarks) (hlen : curve.length = 365)
    (hg : lm.greenup ≤ 364) (hm : lm.maturity ≤ 364)
    (hsn : lm.senescence ≤ 364) (hd : lm.dormancy ≤ 364) :
    warp_and_match curve curve lm lm = some curve := by
  have hid := clippedIndices_id curve.length lm (le_of_eq hlen) hg hm hsn hd
  simp only [warp_and_match]
  rw [if_neg (by omega)]
  rw [hid]
  have hall : ((List.range curve.length).map (fun (i : ℕ) => (i : ℚ))).all
      (fun v => decide (0 ≤ v) && decide (v ≤ (curve.length : ℚ) - 1)) = true := by
    rw [List.all_eq_true]
    intro v hv
    rcases List.mem_map.mp hv with ⟨i, hi, rfl⟩
    rw [Bool.and_eq_true, decide_eq_true_eq, decide_eq_true_eq]
    refine ⟨Nat.cast_nonneg i, ?_⟩
    have hi365 : i < 365 := hlen ▸ List.mem_range.mp hi
    have hc : (i : ℚ) ≤ 364 := by exact_mod_cast Nat.le_of_lt_succ hi365
    rw [hlen]
    push_cast
    linarith
  rw [if_pos hall]
  congr 1
  rw [List.map_map]
  have hres : ∀ i ∈ List.range curve.length,
      ((fun v => callLinear ((List.range curve.length).map (fun (j : ℕ) => (j : ℚ)))
          curve v) ∘ (fun (i : ℕ) => (i : ℚ))) i = curve.getD i 0 := by
    intro i hi
    simp only [Function.comp_apply]
    exact callLinear_range_int curve i (by omega) (List.mem_range.mp hi)
  rw [List.map_congr_left hres, range_map_getD]

theorem warp_identity_witness :
    warp_and_match (List.replicate 365 (0 : ℚ)) (List.replicate 365 (0 : ℚ))
      fallbackLandmarks fallbackLandmarks = some (List.replicate 365 (0 : ℚ)) :=
  warp_identity (List.replicate 365 0) fallbackLandmarks (by simp)
    (by decide) (by decide) (by decide) (by decide)

/-- C1 counterexample: with a reference of length 10 and a target of
length 5 (identical landmark sets {1,2,3,4}), the clip keeps index 9,
which exceeds targetLength - 1 = 4, and the final resample fails: the
warp does not clamp to [0, targetLength-1] and does not always succeed. -/
theorem warp_clip_cex :
    warp_and_match (List.replicate 10 (0 : ℚ)) (List.replicate 5 (0 : ℚ))
      ⟨1, 2, 3, 4⟩ ⟨1, 2, 3, 4⟩ = none ∧
    (9 : ℚ) ∈ clippedIndices 10 ⟨1, 2, 3, 4⟩ ⟨1, 2, 3, 4⟩ := by
  have hid := clippedIndices_id 10 ⟨1, 2, 3, 4⟩ (by norm_num)
    (by norm_num) (by norm_num) (by norm_num) (by norm_num)
  have hmem : (9 : ℚ) ∈ clippedIndices 10 ⟨1, 2, 3, 4⟩ ⟨1, 2, 3, 4⟩ := by
    rw [hid]
    exact List.mem_map.mpr ⟨9, by simp, by norm_num⟩
  refine ⟨?_, hmem⟩
  simp only [warp_and_match, List.length_replicate]
  rw [if_neg (by norm_num)]
  have hfail : ¬ ((clippedIndices 10 (⟨1, 2, 3, 4⟩ : Landmarks) ⟨1, 2, 3, 4⟩).all
      (fun v => decide (0 ≤ v) && decide (v ≤ ((5 : ℕ) : ℚ) - 1)) = true) := by
    intro hall
    have h9 := List.all_eq_true.mp hall 9 hmem
    norm_num at h9
  rw [if_neg hfail]

/-- C1 amended: the warper clamps every inverse-mapped index to the fixed
range [0, 364] (not [0, targetLength-1]); for a 365-sample target this
keeps resampling inside the target's bounds, so the warp always
succeeds. -/
theorem warp_clip_safe_365 (ref tgt : List ℚ) (refLm tgtLm : Landmarks)
    (hlen : tgt.length = 365) :
    (∀ v ∈ clippedIndices ref.length refLm tgtLm, 0 ≤ v ∧ v ≤ 364) ∧
    ∃ w, warp_and_match ref tgt refLm tgtLm = some w := by
  have hcl : ∀ v ∈ clippedIndices ref.length refLm tgtLm, 0 ≤ v ∧ v ≤ 364 := by
    intro v hv
    simp only [clippedIndices] at hv
    rcases List.mem_map.mp hv with ⟨u, _, rfl⟩
    exact ⟨le_min (le_max_right u 0) (by norm_num), min_le_right _ _⟩
  refine ⟨hcl, ?_⟩
  simp only [warp_and_match]
  rw [if_neg (by omega)]
  have hall : (clippedIndices ref.length refLm tgtLm).all
      (fun v => decide (0 ≤ v) && decide (v ≤ (tgt.length : ℚ) - 1)) = true := by
    rw [List.all_eq_true]
    intro v hv
    obtain ⟨h0, h364⟩ := hcl v hv
    rw [Bool.and_eq_true, decide_eq_true_eq, decide_eq_true_eq]
    refine ⟨h0, ?_⟩
    rw [hlen]
    push_cast
    linarith
  rw [if_pos hall]
  exact ⟨_, rfl⟩

theorem warp_clip_safe_365_witness :
    (∀ v ∈ clippedIndices (List.replicate 10 (0 : ℚ)).length fallbackLandmarks
        fallbackLandmarks, 0 ≤ v ∧ v ≤ 364) ∧
    ∃ w, warp_and_match (List.replicate 10 (0 : ℚ)) (List.replicate 365 (0 : ℚ))
      fallbackLandmarks fallbackLandmarks = some w :=
  warp_clip_safe_365 (List.replicate 10 0) (List.replicate 365 0)
    fallbackLandmarks fallbackLandmarks (by simp)

theorem flat_series_fallback_witness :
    extract_landmarks (List.replicate 365 (some (1 / 2))) =
      .ok (List.replicate 365 ((1 : ℚ) / 2), fallbackLandmarks) :=
  flat_series_fallback (1 / 2)
